import Mathlib

/-!
Verification of the inbox tidying rule engine of `gmail_cleanup.py`.

The pure logic of the tool is embedded shallowly: strings are Lean
strings manipulated through their character lists (mirroring Python string
methods character by character), remote Gmail API calls are modelled by
explicit oracles (functions supplied as parameters that describe what the
remote service would answer), and the side effects of each operation are
returned as explicit traces of issued calls.  Messages are modelled by
their id strings: the source code reads nothing but `msg['id']` from a
message ref.
-/

namespace GmailCleanup

/-! ## String helpers mirroring Python string methods -/

/-- Python `str.lower` on a character list (ASCII lowering, as used by the
tool on email addresses and label names). -/
def toLowerChars (s : List Char) : List Char := s.map Char.toLower

/-- Python `str.strip()` with no argument: remove whitespace from both ends. -/
def pyStrip (s : List Char) : List Char :=
  ((s.dropWhile Char.isWhitespace).reverse.dropWhile Char.isWhitespace).reverse

/-- Python `str.strip('>')`: remove `>` characters from both ends. -/
def stripGt (s : List Char) : List Char :=
  ((s.dropWhile (· == '>')).reverse.dropWhile (· == '>')).reverse

/-- Python `str.startswith`, computed on the character lists. -/
def pyStartsWith (s pre : String) : Bool := pre.data.isPrefixOf s.data

/-- Python `str.split(sep)` for a one-character separator: splitting an
empty string yields `[""]`, like Python. -/
def splitOnChar (sep : Char) : List Char → List (List Char)
  | [] => [[]]
  | c :: rest =>
    if c == sep then [] :: splitOnChar sep rest
    else
      match splitOnChar sep rest with
      | [] => [[c]]
      | g :: gs => (c :: g) :: gs

/-- Helper for substring containment: does `needle` occur in `hay`? -/
def substrSearch (needle : List Char) : List Char → Bool
  | [] => needle.isEmpty
  | c :: rest => needle.isPrefixOf (c :: rest) || substrSearch needle rest

/-- Python `needle in hay` on strings: substring containment. -/
def pyContains (hay needle : String) : Bool := substrSearch needle.data hay.data

/-! ## The regex `<([^>]+)>`

`re.search` and `re.findall` with the pattern `<([^>]+)>` are the only
regular-expression uses in the engine.  They are embedded directly: a
match is a `<`, at least one non-`>` character, then `>`; matches are
found left to right and (for `findall`) do not overlap. -/

/-- Characters before the first `>` of the list, or `none` when the list
has no `>`. -/
def takeUntilGt : List Char → Option (List Char)
  | [] => none
  | '>' :: _ => some []
  | c :: rest => (takeUntilGt rest).map (c :: ·)

/-- First match of `re.search(r'<([^>]+)>', s)`: the group between the
brackets. -/
def firstAngleGroup : List Char → Option (List Char)
  | [] => none
  | c :: rest =>
    if c == '<' then
      match takeUntilGt rest with
      | some content =>
        if content.isEmpty then firstAngleGroup rest else some content
      | none => firstAngleGroup rest
    else firstAngleGroup rest

/-! ## Sender grouping (`extract_domain`, `extract_email`, `group_key`) -/

/-- Source `extract_domain`: the text of the first `<...>` group (else the
stripped header), and if it contains `@`, the part after the first `@`,
lowercased and stripped of `>`; `None` when there is no `@`. -/
def extract_domain (from_header : String) : Option String :=
  let email := (firstAngleGroup from_header.data).getD (pyStrip from_header.data)
  if email.contains '@' then
    some (String.mk (stripGt (toLowerChars ((splitOnChar '@' email).getD 1 []))))
  else none

/-- Source `extract_email`: the first `<...>` group (else the stripped
header), lowercased. -/
def extract_email (from_header : String) : String :=
  String.mk (toLowerChars ((firstAngleGroup from_header.data).getD (pyStrip from_header.data)))

/-- Source `PERSONAL_DOMAINS`: providers whose senders are never merged. -/
def PERSONAL_DOMAINS : List String :=
  ["gmail.com", "yahoo.com", "hotmail.com", "outlook.com", "icloud.com",
   "me.com", "mac.com", "aol.com", "live.com", "msn.com", "protonmail.com",
   "proton.me", "ymail.com", "sbcglobal.net", "att.net", "comcast.net",
   "verizon.net"]

/-- Source `group_key`: full bare email for personal domains, the sending
domain otherwise; `None` propagates from `extract_domain` (in Python,
`None in PERSONAL_DOMAINS` is false). -/
def group_key (from_header : String) : Option String :=
  match extract_domain from_header with
  | some domain =>
    if domain ∈ PERSONAL_DOMAINS then some (extract_email from_header)
    else some domain
  | none => none

/-! ## Label suggestion (`domain_to_label`) -/

/-- Source list `prefixes` of `domain_to_label`, in source order. -/
def domainPrefixes : List String :=
  ["mail.", "email.", "notifications.", "notification.", "alerts.", "alert.",
   "noreply.", "no-reply.", "info.", "news.", "newsletter.", "hello.", "hi.",
   "support.", "service.", "updates.", "update.", "notify.", "mailer.",
   "messages.", "message.", "reply.", "do-not-reply."]

/-- The prefix-stripping loop of `domain_to_label`: try each generic
subdomain in order; on the first one that matches, drop it and stop
(`break`), so at most one is removed. -/
def stripGenericSub : List (List Char) → List Char → List Char
  | [], d => d
  | p :: ps, d => if p.isPrefixOf d then d.drop p.length else stripGenericSub ps d

/-- Python `str.capitalize`: first character uppercased, the rest
lowercased. -/
def pyCapitalize (s : List Char) : List Char :=
  match s with
  | [] => []
  | c :: rest => c.toUpper :: toLowerChars rest

/-- Source `domain_to_label`: strip one generic subdomain, take the first
dot-separated segment, capitalize it. -/
def domain_to_label (domain : String) : String :=
  let cleaned := stripGenericSub (domainPrefixes.map String.data) domain.data
  let parts := splitOnChar '.' cleaned
  String.mk (pyCapitalize (parts.headD cleaned))

/-! ## Unsubscribe header parsing (`get_list_unsubscribe`) -/

/-- Split a list at its first `>`: the characters before it and the
remainder after it, or `none` when there is no `>`. -/
def splitAngle : List Char → Option (List Char × List Char)
  | [] => none
  | '>' :: rest => some ([], rest)
  | c :: rest => (splitAngle rest).map (fun p => (c :: p.1, p.2))

/-- Worker for `re.findall(r'<([^>]+)>', s)` with explicit fuel (one unit
per character consumed, so `s.length` always suffices). -/
def angleGroupsAux : Nat → List Char → List (List Char)
  | 0, _ => []
  | _ + 1, [] => []
  | fuel + 1, c :: rest =>
    if c == '<' then
      match splitAngle rest with
      | some (content, r) =>
        if content.isEmpty then angleGroupsAux fuel rest
        else content :: angleGroupsAux fuel r
      | none => angleGroupsAux fuel rest
    else angleGroupsAux fuel rest

/-- All groups of `re.findall(r'<([^>]+)>', s)`, left to right,
non-overlapping. -/
def angleGroups (l : List Char) : List (List Char) := angleGroupsAux l.length l

/-- The angle-bracket-delimited URIs of a `List-Unsubscribe` header value. -/
def angleUris (raw : String) : List String := (angleGroups raw.data).map String.mk

/-- Result of `get_list_unsubscribe`: an HTTP URL, a mailto URL, and
whether RFC 8058 one-click POST is supported. -/
structure UnsubInfo where
  http_url : Option String
  mailto_url : Option String
  use_post : Bool
deriving DecidableEq

/-- The accumulating loop over the regex matches: first match starting
with `http` is kept as the HTTP URL, else the first starting with
`mailto:` as the mailto URL (an `elif`, first-seen wins per scheme). -/
def scanUrls : List String → Option String → Option String → Option String × Option String
  | [], h, m => (h, m)
  | u :: rest, h, m =>
    if pyStartsWith u "http" && h.isNone then scanUrls rest (some u) m
    else if pyStartsWith u "mailto:" && m.isNone then scanUrls rest h (some u)
    else scanUrls rest h m

/-- Source `get_list_unsubscribe`, pure part: from the raw
`List-Unsubscribe` header value (empty string when the header is missing)
and the `List-Unsubscribe-Post` header value.  A missing/empty
`List-Unsubscribe` short-circuits to the all-empty result before the
post header is even examined. -/
def get_list_unsubscribe (raw post : String) : UnsubInfo :=
  if raw.data.isEmpty then ⟨none, none, false⟩
  else
    let p := scanUrls (angleUris raw) none none
    ⟨p.1, p.2, pyContains post "List-Unsubscribe=One-Click"⟩

/-- Modelled from the claim wording, not from the source: a URI whose
scheme is HTTP or HTTPS.  Used only to compare the claim "the first URI
whose scheme is HTTP(S)" with the code's `startswith('http')` test. -/
def schemeIsHttpOrHttps (u : String) : Bool :=
  pyStartsWith u "http:" || pyStartsWith u "https:"

/-! ## Rule engine: query building and the suggestion gate
(`run_tidy_rules`) -/

/-- Python truthiness of an optional string: `None` and `''` are falsy. -/
def optStrTruthy : Option String → Bool
  | none => false
  | some s => !s.data.isEmpty

/-- Query construction for one rule in `run_tidy_rules`: `none` when the
rule is skipped (unusable label, or neither matcher present); otherwise a
truthy raw `query` always wins and the `from` patterns are not consulted;
otherwise the brace group ORs the sender patterns. -/
def rule_query (label : Option String) (from_patterns : List String)
    (raw_query : Option String) : Option String :=
  if !optStrTruthy label || (from_patterns.isEmpty && !optStrTruthy raw_query) then
    none
  else if optStrTruthy raw_query then
    some ("in:inbox " ++ raw_query.getD "")
  else
    some ("in:inbox \x7b" ++
      String.intercalate " " (from_patterns.map (fun p => "from:" ++ p)) ++ "\x7d")

/-- The gate at the end of `run_tidy_rules` deciding whether the
suggestion phase (`suggest_tidy_labels`) is entered: the scan prompt is
issued when not in no-confirm mode, and a stripped, lowercased operator
answer of `y` enters the phase.  `dry_run` is in scope at that point but
is not consulted by the gate. -/
def suggest_phase_entered (dry_run no_confirm : Bool) (response : String) : Bool :=
  !no_confirm && (toLowerChars (pyStrip response.data) == ['y'])

/-! ## Rule persistence merge (write-back step of `suggest_tidy_labels`) -/

/-- A rule of `tidy-rules.yaml` as the write-back step reads it: a label,
an optional `from` pattern list (`none` models the key being absent), an
optional raw query, and the archive flag. -/
structure Rule where
  label : String
  from_patterns : Option (List String)
  query : Option String
  archive : Bool
deriving DecidableEq

/-- The brand-new rule object queued by the suggestion loop:
`{'label': label, 'from': [key], 'archive': archive}` (no `query` key). -/
def newRule (label key : String) (archive : Bool) : Rule :=
  ⟨label, some [key], none, archive⟩

/-- The merge condition of the write-back search:
`rule['label'].lower() == label.lower() and 'from' in rule`. -/
def mergeTarget (label : String) (r : Rule) : Bool :=
  toLowerChars r.label.data == toLowerChars label.data && r.from_patterns.isSome

/-- The update applied to the matched rule: append the key to its
pattern list unless it is already present (`if domain not in rule['from']`). -/
def appendKey (key : String) (r : Rule) : Rule :=
  if (r.from_patterns.getD []).contains key then r
  else { r with from_patterns := some ((r.from_patterns.getD []) ++ [key]) }

/-- The inner `for rule in config['rules']` search of the write-back: the
first rule satisfying the merge condition is updated and the loop breaks
(`merged = True; break`); `none` when no rule matches. -/
def mergeGo (label key : String) : List Rule → Option (List Rule)
  | [] => none
  | r :: rs =>
    if mergeTarget label r then some (appendKey key r :: rs)
    else (mergeGo label key rs).map (r :: ·)

/-- One iteration of the write-back loop of `suggest_tidy_labels` for a
newly accepted `(label, key)` pair: merge into the first matching
`from`-rule, else append one brand-new rule at the end. -/
def mergeOne (cfg : List Rule) (label key : String) (archive : Bool) : List Rule :=
  match mergeGo label key cfg with
  | some cfg2 => cfg2
  | none => cfg ++ [newRule label key archive]

/-! ## Batch action executor and label directory -/

/-- A bulk mutation call issued to the remote service. -/
inductive GCall where
  | batchDelete (ids : List String)
  | batchModify (ids : List String) (addLabelIds removeLabelIds : List String)
deriving DecidableEq

/-- The message ids carried by a bulk mutation call. -/
def GCall.msgIds : GCall → List String
  | .batchDelete ids => ids
  | .batchModify ids _ _ => ids

/-- Contiguous batches `messages[i:i+batch_size]` for
`i in range(0, total, batch_size)`, with explicit fuel.  Each iteration
consumes at least one element when the batch size is positive, so the
list length always suffices as fuel (Python raises on a zero step, so
only positive batch sizes are meaningful). -/
def chunksAux : Nat → Nat → List String → List (List String)
  | 0, _, _ => []
  | _ + 1, _, [] => []
  | fuel + 1, B, x :: xs => ((x :: xs).take B) :: chunksAux fuel B ((x :: xs).drop B)

/-- The batch partition of a message-id list. -/
def chunks (B : Nat) (l : List String) : List (List String) :=
  chunksAux l.length B l

/-- The batch loop shared by the three executors: one bulk call per
batch; a failed call (`except HttpError`) is reported and skipped and the
loop continues with the next batch; the returned count accumulates the
sizes of the successful batches.  `ok i` is the oracle telling whether
the remote service accepts batch number `i`. -/
def batchLoop (mk : List String → GCall) (ok : Nat → Bool) :
    Nat → List (List String) → Nat × List GCall
  | _, [] => (0, [])
  | i, b :: bs =>
    let r := batchLoop mk ok (i + 1) bs
    ((if ok i then b.length else 0) + r.1, mk b :: r.2)

/-- Source `delete_messages`: one `batchDelete` per batch. -/
def delete_messages (ok : Nat → Bool) (ids : List String) (B : Nat) :
    Nat × List GCall :=
  batchLoop GCall.batchDelete ok 0 (chunks B ids)

/-- Source `trash_messages`: one `batchModify` per batch adding TRASH and
removing INBOX. -/
def trash_messages (ok : Nat → Bool) (ids : List String) (B : Nat) :
    Nat × List GCall :=
  batchLoop (fun ms => GCall.batchModify ms ["TRASH"] ["INBOX"]) ok 0 (chunks B ids)

/-- Answer of a remote call that can fail with an HTTP status code. -/
inductive ApiResult (α : Type) where
  | ok (a : α)
  | err (status : Nat)
deriving DecidableEq

/-- A remote label as listed by the service. -/
structure GLabel where
  id : String
  name : String
deriving DecidableEq

/-- Oracle for the label directory: what the remote service answers to
the initial `labels().list`, to `labels().create`, and to the re-list
performed inside the 409-conflict handler. -/
structure LabelOracle where
  listLabels : ApiResult (List GLabel)
  createLabel : ApiResult String
  relistLabels : ApiResult (List GLabel)

/-- Case-insensitive label lookup of `get_or_create_label`. -/
def findLabel (name : String) (ls : List GLabel) : Option String :=
  (ls.find? (fun l => toLowerChars l.name.data == toLowerChars name.data)).map GLabel.id

/-- The `except HttpError` handler of `get_or_create_label`: on a 409
conflict re-list and re-match; any other error (or a failing re-list, or
a re-list without a match) gives up with the `None` sentinel. -/
def handleLabelError (o : LabelOracle) (name : String) (status : Nat) : Option String :=
  if status == 409 then
    match o.relistLabels with
    | .ok ls => findLabel name ls
    | .err _ => none
  else none

/-- Source `get_or_create_label`: list all labels and match
case-insensitively; if none matches, create; an HTTP error anywhere falls
into the conflict handler. -/
def get_or_create_label (o : LabelOracle) (name : String) : Option String :=
  match o.listLabels with
  | .err s => handleLabelError o name s
  | .ok ls =>
    match findLabel name ls with
    | some lid => some lid
    | none =>
      match o.createLabel with
      | .ok lid => some lid
      | .err s => handleLabelError o name s

/-- Source `label_and_archive_messages`: abort with 0 processed and no
bulk calls when the label is unavailable (`if not label_id`, which is
also true for an empty id string); otherwise one `batchModify` per batch
adding the resolved label id and, when archiving, removing INBOX. -/
def label_and_archive_messages (o : LabelOracle) (ok : Nat → Bool)
    (ids : List String) (name : String) (B : Nat) (archive : Bool) :
    Nat × List GCall :=
  match get_or_create_label o name with
  | none => (0, [])
  | some lid =>
    if lid.data.isEmpty then (0, [])
    else
      batchLoop
        (fun ms => GCall.batchModify ms [lid] (if archive then ["INBOX"] else []))
        ok 0 (chunks B ids)

/-- Sum of the sizes of the batches whose calls succeeded, the batches
being numbered from `i`. -/
def succeededSumFrom (ok : Nat → Bool) (i : Nat) (batches : List (List String)) : Nat :=
  (((batches.enumFrom i).filter (fun p => ok p.1)).map (fun p => p.2.length)).sum

/-! ## Unsubscribe execution (`unsubscribe_from_messages`) -/

/-- Per-sender unsubscribe data assembled before execution: the sender's
From value, the parsed URLs and the one-click flag. -/
structure SenderInfo where
  sender : String
  http_url : Option String
  mailto_url : Option String
  use_post : Bool
deriving DecidableEq

/-- Outcome of one HTTP unsubscribe request: a 2xx answer, a non-2xx
answer (`urllib` raises `HTTPError` for those), or a transport-level
failure (timeout, connection error, DNS failure — any other exception). -/
inductive HttpOutcome where
  | ok
  | httpError (code : Nat)
  | transportError
deriving DecidableEq

/-- An HTTP request issued during unsubscribe execution: a one-click POST
carrying `List-Unsubscribe=One-Click`, or a plain GET. -/
inductive UAction where
  | post (url : String)
  | get (url : String)
deriving DecidableEq

/-- The senders having at least one unsubscribe affordance
(`with_links` in the source). -/
def withLinks (infos : List SenderInfo) : List SenderInfo :=
  infos.filter (fun r => r.http_url.isSome || r.mailto_url.isSome)

/-- The execution loop of `unsubscribe_from_messages`: a sender with an
HTTP URL gets one request (POST when one-click is supported, else GET); a
2xx answer or an `HTTPError` counts as a success; any other exception is
a true failure and demotes the sender to the manual bucket when a mailto
URL is present; a sender without an HTTP URL goes straight to the manual
bucket.  Returns the success count, the manual bucket in encounter order,
and the trace of HTTP requests issued. -/
def unsubLoop (outcome : String → HttpOutcome) :
    List SenderInfo → Nat × List SenderInfo × List UAction
  | [] => (0, [], [])
  | r :: rest =>
    match r.http_url with
    | some url =>
      let act := if r.use_post then UAction.post url else UAction.get url
      let res := unsubLoop outcome rest
      match outcome url with
      | .transportError =>
        (res.1, (if r.mailto_url.isSome then r :: res.2.1 else res.2.1),
         act :: res.2.2)
      | _ => (res.1 + 1, res.2.1, act :: res.2.2)
    | none =>
      let res := unsubLoop outcome rest
      (res.1, r :: res.2.1, res.2.2)

/-- Source `unsubscribe_from_messages`, execution part: the loop runs
over the senders with at least one unsubscribe URL. -/
def unsubscribe_from_messages (outcome : String → HttpOutcome)
    (infos : List SenderInfo) : Nat × List SenderInfo × List UAction :=
  unsubLoop outcome (withLinks infos)

/-- A sender counted as an unsubscribe success: it has an HTTP URL and
its request came back with any HTTP response — a 2xx or a non-2xx status
code both count; only a transport-level failure does not. -/
def countsSuccess (outcome : String → HttpOutcome) (r : SenderInfo) : Bool :=
  match r.http_url with
  | some url =>
    match outcome url with
    | .ok => true
    | .httpError _ => true
    | .transportError => false
  | none => false

/-- A sender ending in the manual (mailto-only) bucket: no HTTP URL at
all, or a transport-level failure with a mailto fallback present. -/
def goesManual (outcome : String → HttpOutcome) (r : SenderInfo) : Bool :=
  match r.http_url with
  | some url =>
    match outcome url with
    | .transportError => r.mailto_url.isSome
    | _ => false
  | none => true

/-- The one HTTP request a sender gives rise to, when it has an HTTP
URL: a POST when one-click is supported, else a GET. -/
def httpAttempt (r : SenderInfo) : Option UAction :=
  r.http_url.map (fun url => if r.use_post then UAction.post url else UAction.get url)

/-! ## Message locator (`search_messages`) and the suggestion scan cap -/

/-- Source `search_messages` loop with explicit fuel (the Python loop
could spin on an adversarial service that keeps answering empty pages
with a fresh continuation token; fuel bounds the number of page calls).
`fetch` is the oracle for the paged `messages().list` endpoint: from the
continuation token (`none` for the first page) and the requested page
size it gives the page's refs and the next token.  Refs accumulate until
the budget `maxR` is reached or no token remains; each page request asks
for `min(maxR - collected, 500)`. -/
def search_messages_aux (fetch : Option Nat → Nat → List String × Option Nat)
    (maxR : Nat) : Nat → Option Nat → List String → List String
  | 0, _, acc => acc
  | fuel + 1, token, acc =>
    let r := fetch token (min (maxR - acc.length) 500)
    let acc2 := acc ++ r.1
    if maxR ≤ acc2.length then acc2
    else
      match r.2 with
      | none => acc2
      | some t => search_messages_aux fetch maxR fuel (some t) acc2

/-- Source `search_messages`: start with no token and nothing collected. -/
def search_messages (fetch : Option Nat → Nat → List String × Option Nat)
    (maxR fuel : Nat) : List String :=
  search_messages_aux fetch maxR fuel none []

/-- The inbox scan of `suggest_tidy_labels`: always
`search_messages(service, 'in:inbox', max_results=150)` — the cap is the
hard-coded literal 150; the tidy run's result cap is not passed through. -/
def suggest_scan_messages (fetch : Option Nat → Nat → List String × Option Nat)
    (fuel : Nat) : List String :=
  search_messages fetch 150 fuel

/-- The batch-partitioning contract for the result `r` of one executor
run on `ids` with batch size `B` and per-batch outcome `ok`: exactly
`ceil(N/B)` bulk calls, each carrying at most `B` ids, the calls carrying
the ids contiguously in order, the returned count being the sum of the
sizes of the successful batches, and that count being at most `N`. -/
def batchProps (ids : List String) (B : Nat) (ok : Nat → Bool)
    (r : Nat × List GCall) : Prop :=
  r.2.length = (ids.length + B - 1) / B ∧
  (∀ c ∈ r.2, (GCall.msgIds c).length ≤ B) ∧
  (r.2.map GCall.msgIds).flatten = ids ∧
  r.1 = succeededSumFrom ok 0 (r.2.map GCall.msgIds) ∧
  r.1 ≤ ids.length

end GmailCleanup


namespace GmailCleanup

/-- C2 counterexample: the claim says the From headers
`"C" <c@mail.acme.com>` and `"D" <d@notifications.acme.com>` yield the
same group key `acme.com`.  In the code, `group_key` for a non-personal
domain is the full sending domain as extracted from the address —
subdomains are not stripped — so the two headers yield the distinct keys
`mail.acme.com` and `notifications.acme.com`, neither of which is
`acme.com`. -/
theorem c2_counterexample :
    group_key "\"C\" <c@mail.acme.com>" = some "mail.acme.com" ∧
    group_key "\"D\" <d@notifications.acme.com>" = some "notifications.acme.com" ∧
    group_key "\"C\" <c@mail.acme.com>" ≠ group_key "\"D\" <d@notifications.acme.com>" ∧
    group_key "\"C\" <c@mail.acme.com>" ≠ some "acme.com" := by
  decide

/-- C2 amended: From headers `"A" <a@gmail.com>` and `"B" <b@gmail.com>`
(a personal-mail domain) yield the two distinct group keys `a@gmail.com`
and `b@gmail.com` (the full bare email addresses); `"C" <c@mail.acme.com>`
and `"D" <d@notifications.acme.com>` (non-personal domains) yield the
keys `mail.acme.com` and `notifications.acme.com` — the full sending
domain of each address, which are distinct because subdomains are kept. -/
theorem c2_group_keys :
    group_key "\"A\" <a@gmail.com>" = some "a@gmail.com" ∧
    group_key "\"B\" <b@gmail.com>" = some "b@gmail.com" ∧
    group_key "\"A\" <a@gmail.com>" ≠ group_key "\"B\" <b@gmail.com>" ∧
    group_key "\"C\" <c@mail.acme.com>" = some "mail.acme.com" ∧
    group_key "\"D\" <d@notifications.acme.com>" = some "notifications.acme.com" := by
  decide

/-- The stripping loop removes exactly the first matching prefix of the
list, applied once (stripping is not iterated). -/
theorem stripGenericSub_eq_find (ps : List (List Char)) (d : List Char) :
    stripGenericSub ps d =
      match ps.find? (fun p => p.isPrefixOf d) with
      | some p => d.drop p.length
      | none => d := by
  induction ps with
  | nil => rfl
  | cons p ps ih =>
    by_cases h : p.isPrefixOf d
    · simp [stripGenericSub, List.find?, h]
    · simp only [Bool.not_eq_true] at h
      simp [stripGenericSub, List.find?, h, ih]

/-- A match starting with `http` cannot also start with `mailto:` (their
first characters differ), so the `elif` in the scan never loses a mailto
URI to the http branch. -/
theorem http_not_mailto (u : String) (h : pyStartsWith u "http" = true) :
    pyStartsWith u "mailto:" = false := by
  have e1 : "http".data = ['h', 't', 't', 'p'] := rfl
  have e2 : "mailto:".data = ['m', 'a', 'i', 'l', 't', 'o', ':'] := rfl
  unfold pyStartsWith at h ⊢
  rw [e1] at h
  rw [e2]
  cases hu : u.data with
  | nil => rw [hu] at h; simp [List.isPrefixOf] at h
  | cons c cs =>
    rw [hu] at h
    simp only [List.isPrefixOf, Bool.and_eq_true, beq_iff_eq] at h
    simp [List.isPrefixOf, ← h.1]

/-- The accumulating scan computes, per scheme, the first match of that
scheme (unless an accumulator is already set, in which case it is kept). -/
theorem scanUrls_spec (l : List String) :
    ∀ h m : Option String,
      scanUrls l h m =
        ((if h.isSome then h else l.find? (fun u => pyStartsWith u "http")),
         (if m.isSome then m else l.find? (fun u => pyStartsWith u "mailto:"))) := by
  induction l with
  | nil => intro h m; cases h <;> cases m <;> simp [scanUrls]
  | cons u rest ih =>
    intro h m
    cases hh : pyStartsWith u "http" <;> cases hm : pyStartsWith u "mailto:"
    · cases h <;> cases m <;>
        simp [scanUrls, hh, hm, ih, List.find?_cons_of_neg]
    · cases h <;> cases m <;>
        simp [scanUrls, hh, hm, ih, List.find?_cons_of_neg, List.find?_cons_of_pos]
    · cases h <;> cases m <;>
        simp [scanUrls, hh, hm, ih, List.find?_cons_of_neg, List.find?_cons_of_pos,
              http_not_mailto u hh]
    · exact absurd hm (by simp [http_not_mailto u hh])

/-- C8: `domain_to_label` strips at most one generic subdomain prefix —
the first matching entry of the fixed ordered list wins and stripping is
not iterated (the general conjunct characterises the loop by a single
`find?` and a single `drop`) — then capitalizes the first remaining
dot-separated segment; in particular `notifications.amazon.com` yields
`Amazon` and `mail.my-shop.io` yields `My-shop`. -/
theorem c8_domain_to_label :
    (∀ d : List Char,
      stripGenericSub (domainPrefixes.map String.data) d =
        match (domainPrefixes.map String.data).find? (fun p => p.isPrefixOf d) with
        | some p => d.drop p.length
        | none => d) ∧
    domain_to_label "notifications.amazon.com" = "Amazon" ∧
    domain_to_label "mail.my-shop.io" = "My-shop" := by
  refine ⟨fun d => stripGenericSub_eq_find _ d, by decide, by decide⟩

/-- C4 counterexample: the claim says `http_url` is the first
angle-bracket-delimited URI whose scheme is HTTP(S).  The code actually
tests `startswith('http')`: on the header value
`<httpz://x>, <https://y>` it picks `httpz://x` — whose scheme is
`httpz`, not HTTP(S) — instead of `https://y`, the first URI whose scheme
really is HTTP(S). -/
theorem c4_counterexample :
    (get_list_unsubscribe "<httpz://x>, <https://y>" "").http_url = some "httpz://x" ∧
    schemeIsHttpOrHttps "httpz://x" = false ∧
    (angleUris "<httpz://x>, <https://y>").find? schemeIsHttpOrHttps = some "https://y" ∧
    (get_list_unsubscribe "<httpz://x>, <https://y>" "").http_url ≠
      (angleUris "<httpz://x>, <https://y>").find? schemeIsHttpOrHttps := by
  decide

/-- C4 amended: for every `List-Unsubscribe` header value, `http_url` is
the first angle-bracket-delimited URI starting with the literal prefix
`http` (this includes every HTTPS URI) and `mailto_url` is the first
starting with `mailto:`, later URIs of the same scheme being ignored; the
input `<https://x/u>, <mailto:y@z>` with the post header
`List-Unsubscribe=One-Click` yields
`http_url=https://x/u, mailto_url=mailto:y@z, supports_one_click_post=true`,
and a missing (empty) `List-Unsubscribe` header yields the all-empty info
with `supports_one_click_post=false`. -/
theorem c4_unsubscribe_parsing :
    (∀ raw post : String,
      get_list_unsubscribe raw post =
        if raw.data.isEmpty then ⟨none, none, false⟩
        else ⟨(angleUris raw).find? (fun u => pyStartsWith u "http"),
              (angleUris raw).find? (fun u => pyStartsWith u "mailto:"),
              pyContains post "List-Unsubscribe=One-Click"⟩) ∧
    get_list_unsubscribe "<https://x/u>, <mailto:y@z>" "List-Unsubscribe=One-Click" =
      ⟨some "https://x/u", some "mailto:y@z", true⟩ ∧
    (∀ post : String, get_list_unsubscribe "" post = ⟨none, none, false⟩) := by
  refine ⟨fun raw post => ?_, by decide, fun post => rfl⟩
  unfold get_list_unsubscribe
  split
  · rfl
  · rw [scanUrls_spec]
    simp

/-- C9: a rule carrying both a truthy raw query and a non-empty
sender-pattern list is evaluated, not rejected or skipped: its search
query is `in:inbox <raw-query>` and the sender patterns are silently
ignored (the query equals the one built with no patterns at all). -/
theorem c9_raw_query_wins (label : Option String) (fp : List String)
    (rq : Option String) (hl : optStrTruthy label = true) (hfp : fp ≠ [])
    (hq : optStrTruthy rq = true) :
    rule_query label fp rq = some ("in:inbox " ++ rq.getD "") ∧
    rule_query label fp rq = rule_query label [] rq ∧
    (rule_query label fp rq).isSome = true := by
  unfold rule_query
  simp [hl, hq]

/-- Witness for C9 at a concrete rule with both matcher kinds present. -/
theorem c9_witness :
    optStrTruthy (some "News") = true ∧ (["a.com"] : List String) ≠ [] ∧
    optStrTruthy (some "older_than:1y") = true ∧
    (rule_query (some "News") ["a.com"] (some "older_than:1y") =
        some ("in:inbox " ++ (some "older_than:1y").getD "") ∧
      rule_query (some "News") ["a.com"] (some "older_than:1y") =
        rule_query (some "News") [] (some "older_than:1y") ∧
      (rule_query (some "News") ["a.com"] (some "older_than:1y")).isSome = true) :=
  ⟨by decide, by decide, by decide,
    c9_raw_query_wins (some "News") ["a.com"] (some "older_than:1y")
      (by decide) (by decide) (by decide)⟩

/-- C5 counterexample: the claim says the suggestion phase is never
entered in a dry-run-only context.  With `dry_run = true`,
`no_confirm = false` and an operator answer of `y`, the gate at the end
of `run_tidy_rules` does enter the phase: the entry test consults only
`no_confirm`. -/
theorem c5_counterexample : suggest_phase_entered true false "y" = true := by
  decide

/-- C5 amended: the suggestion phase is entered exactly when the run is
not in no-confirm mode and the operator answers `y` (stripped,
case-insensitive); in particular it is never entered in no-confirm mode,
but dry-run does not prevent entry — the gate's value is independent of
`dry_run` (inside the phase, dry-run then only previews suggestions). -/
theorem c5_suggest_gate (dry_run no_confirm : Bool) (response : String) :
    (suggest_phase_entered dry_run no_confirm response = true ↔
      no_confirm = false ∧ toLowerChars (pyStrip response.data) = ['y']) ∧
    (no_confirm = true → suggest_phase_entered dry_run no_confirm response = false) ∧
    suggest_phase_entered dry_run no_confirm response =
      suggest_phase_entered (!dry_run) no_confirm response := by
  unfold suggest_phase_entered
  cases no_confirm <;> simp

/-- Witness for C5 amended: in no-confirm mode the phase is not entered. -/
theorem c5_witness : suggest_phase_entered false true "y" = false :=
  (c5_suggest_gate false true "y").2.1 rfl

/-- The write-back search fails exactly when no rule satisfies the merge
condition. -/
theorem mergeGo_eq_none (label key : String) (cfg : List Rule) :
    mergeGo label key cfg = none ↔ ∀ r ∈ cfg, mergeTarget label r = false := by
  induction cfg with
  | nil => simp [mergeGo]
  | cons r rs ih =>
    cases h : mergeTarget label r
    · simp [mergeGo, h, Option.map_eq_none', ih]
    · simp [mergeGo, h]

/-- A successful write-back search updates exactly the first rule that
satisfies the merge condition and leaves every other rule unchanged. -/
theorem mergeGo_eq_some (label key : String) :
    ∀ (cfg cfg2 : List Rule), mergeGo label key cfg = some cfg2 →
      ∃ pre r post, cfg = pre ++ r :: post ∧
        (∀ q ∈ pre, mergeTarget label q = false) ∧
        mergeTarget label r = true ∧
        cfg2 = pre ++ appendKey key r :: post := by
  intro cfg
  induction cfg with
  | nil => intro cfg2 h; simp [mergeGo] at h
  | cons r rs ih =>
    intro cfg2 h
    cases hm : mergeTarget label r
    · rw [mergeGo, hm] at h
      simp only [Bool.false_eq_true, if_false, Option.map_eq_some'] at h
      obtain ⟨c2', hc2', rfl⟩ := h
      obtain ⟨pre, r', post, hcfg, hpre, hr', hc⟩ := ih c2' hc2'
      exact ⟨r :: pre, r', post, by simp [hcfg], by
        intro q hq
        rcases List.mem_cons.mp hq with rfl | hq
        · exact hm
        · exact hpre q hq, hr', by simp [hc]⟩
    · rw [mergeGo, hm] at h
      simp only [if_true, Option.some.injEq] at h
      exact ⟨[], r, rs, rfl, by simp, hm, by simp [← h]⟩

/-- C3 counterexample: the claim says that whenever a rule with the same
label (case-insensitively) exists, the key is merged into that rule and
hence no new rule object is appended.  When the only same-label rule is a
raw-query rule (no `from` key), the code's search skips it
(`'from' in rule` fails) and appends a brand-new rule: the configuration
grows by one entry although a same-label rule exists, and the existing
rule is left without the key. -/
theorem c3_counterexample :
    (∃ r ∈ [Rule.mk "News" none (some "older_than:1y") true],
        toLowerChars r.label.data = toLowerChars "News".data) ∧
    mergeOne [Rule.mk "News" none (some "older_than:1y") true] "News" "a.com" true =
      [Rule.mk "News" none (some "older_than:1y") true,
       newRule "News" "a.com" true] := by
  decide

/-- C3 amended: for every rule configuration and newly accepted
`(label, key)` pair: when no rule both matches the label
case-insensitively and has a `from` pattern list, exactly one brand-new
rule is appended at the end and all original rules are unchanged;
otherwise the first such rule gets the key appended to its pattern list
only when not already present (no duplicate is added), every other rule —
including same-label rules without a pattern list — is unchanged, and the
rule count is preserved. -/
theorem c3_merge (cfg : List Rule) (label key : String) (archive : Bool) :
    ((∀ r ∈ cfg, mergeTarget label r = false) →
      mergeOne cfg label key archive = cfg ++ [newRule label key archive]) ∧
    ((∃ r ∈ cfg, mergeTarget label r = true) →
      ∃ pre r post, cfg = pre ++ r :: post ∧
        (∀ q ∈ pre, mergeTarget label q = false) ∧
        mergeTarget label r = true ∧
        mergeOne cfg label key archive = pre ++ appendKey key r :: post ∧
        (mergeOne cfg label key archive).length = cfg.length) := by
  constructor
  · intro h
    unfold mergeOne
    rw [(mergeGo_eq_none label key cfg).mpr h]
  · intro h
    cases hgo : mergeGo label key cfg with
    | none =>
      obtain ⟨r, hr, hm⟩ := h
      have := (mergeGo_eq_none label key cfg).mp hgo r hr
      rw [hm] at this
      cases this
    | some cfg2 =>
      obtain ⟨pre, r, post, hcfg, hpre, hr, hc2⟩ := mergeGo_eq_some label key cfg cfg2 hgo
      refine ⟨pre, r, post, hcfg, hpre, hr, ?_, ?_⟩
      · unfold mergeOne
        rw [hgo, hc2]
      · unfold mergeOne
        rw [hgo, hc2, hcfg]
        simp

/-- Witness for C3 amended, at the empty configuration: the accepted pair
becomes one brand-new appended rule. -/
theorem c3_witness :
    (∀ r ∈ ([] : List Rule), mergeTarget "Work" r = false) ∧
    mergeOne [] "Work" "acme.com" true = [] ++ [newRule "Work" "acme.com" true] :=
  ⟨by simp, (c3_merge [] "Work" "acme.com" true).1 (by simp)⟩

/-- The batches concatenate back to the original id list (contiguity in
order), whenever the fuel covers the list and the batch size is
positive. -/
theorem chunksAux_flatten (B : Nat) (hB : 0 < B) :
    ∀ (fuel : Nat) (l : List String), l.length ≤ fuel →
      (chunksAux fuel B l).flatten = l := by
  intro fuel
  induction fuel with
  | zero =>
    intro l hl
    have : l = [] := List.eq_nil_of_length_eq_zero (Nat.le_zero.mp hl)
    subst this
    rfl
  | succ fuel ih =>
    intro l hl
    cases l with
    | nil => rfl
    | cons x xs =>
      rw [chunksAux, List.flatten_cons, ih]
      · exact List.take_append_drop B (x :: xs)
      · rw [List.length_drop]
        simp only [List.length_cons] at hl ⊢
        omega

/-- Ceiling-division recurrence backing the batch count: removing one
full (or final partial) batch of `B` from `n ≥ 1` elements decreases the
ceiling `(n + B - 1) / B` by exactly one. -/
theorem succ_ceil_div (n B : Nat) (hB : 0 < B) (hn : 1 ≤ n) :
    (n - B + B - 1) / B + 1 = (n + B - 1) / B := by
  rcases le_or_lt n B with h | h
  · have e1 : n - B = 0 := by omega
    rw [e1]
    have e2 : n + B - 1 = (n - 1) + B := by omega
    rw [e2, Nat.add_div_right _ hB]
    have e3 : (0 + B - 1) / B = 0 := Nat.div_eq_of_lt (by omega)
    have e4 : (n - 1) / B = 0 := Nat.div_eq_of_lt (by omega)
    omega
  · have e1 : n - B + B - 1 = (n - 1 - B) + B := by omega
    rw [e1, Nat.add_div_right _ hB]
    have e2 : n + B - 1 = ((n - 1 - B) + B) + B := by omega
    rw [e2, Nat.add_div_right _ hB, Nat.add_div_right _ hB]

/-- There are exactly `ceil(N/B)` batches. -/
theorem chunksAux_length (B : Nat) (hB : 0 < B) :
    ∀ (fuel : Nat) (l : List String), l.length ≤ fuel →
      (chunksAux fuel B l).length = (l.length + B - 1) / B := by
  intro fuel
  induction fuel with
  | zero =>
    intro l hl
    have : l = [] := List.eq_nil_of_length_eq_zero (Nat.le_zero.mp hl)
    subst this
    simp [chunksAux, Nat.div_eq_of_lt (show B - 1 < B by omega)]
  | succ fuel ih =>
    intro l hl
    cases l with
    | nil => simp [chunksAux, Nat.div_eq_of_lt (show B - 1 < B by omega)]
    | cons x xs =>
      rw [chunksAux, List.length_cons, ih _ (by rw [List.length_drop]; simp only [List.length_cons] at hl ⊢; omega)]
      rw [List.length_drop]
      exact succ_ceil_div (x :: xs).length B hB (by simp)

/-- Every batch carries at most `B` ids. -/
theorem chunksAux_sizes (B : Nat) :
    ∀ (fuel : Nat) (l : List String), ∀ c ∈ chunksAux fuel B l, c.length ≤ B := by
  intro fuel
  induction fuel with
  | zero => intro l c hc; simp [chunksAux] at hc
  | succ fuel ih =>
    intro l c hc
    cases l with
    | nil => simp [chunksAux] at hc
    | cons x xs =>
      rw [chunksAux] at hc
      rcases List.mem_cons.mp hc with rfl | hc
      · rw [List.length_take]
        exact Nat.min_le_left _ _
      · exact ih _ c hc

/-- The loop issues exactly one call per batch, in order, also for the
batches that follow a failed one. -/
theorem batchLoop_calls (mk : List String → GCall) (ok : Nat → Bool) :
    ∀ (i : Nat) (bs : List (List String)), (batchLoop mk ok i bs).2 = bs.map mk := by
  intro i bs
  induction bs generalizing i with
  | nil => rfl
  | cons b bs ih => simp [batchLoop, ih]

/-- One step of the per-batch success sum. -/
theorem succeededSumFrom_cons (ok : Nat → Bool) (i : Nat) (b : List String)
    (bs : List (List String)) :
    succeededSumFrom ok i (b :: bs) =
      (if ok i then b.length else 0) + succeededSumFrom ok (i + 1) bs := by
  cases h : ok i <;> simp [succeededSumFrom, List.enumFrom, h]

/-- The loop's running total is the sum of the sizes of the successful
batches. -/
theorem batchLoop_count (mk : List String → GCall) (ok : Nat → Bool) :
    ∀ (bs : List (List String)) (i : Nat),
      (batchLoop mk ok i bs).1 = succeededSumFrom ok i bs := by
  intro bs
  induction bs with
  | nil => intro i; rfl
  | cons b bs ih => intro i; rw [batchLoop, succeededSumFrom_cons, ih]

/-- The success sum never exceeds the total size of the batches. -/
theorem succeededSumFrom_le (ok : Nat → Bool) :
    ∀ (bs : List (List String)) (i : Nat),
      succeededSumFrom ok i bs ≤ (bs.map List.length).sum := by
  intro bs
  induction bs with
  | nil => intro i; simp [succeededSumFrom]
  | cons b bs ih =>
    intro i
    rw [succeededSumFrom_cons, List.map_cons, List.sum_cons]
    have := ih (i + 1)
    split <;> omega

/-- The batch-partitioning contract holds for every run of the shared
batch loop over the batch partition, for any per-batch call
constructor that carries the batch's ids. -/
theorem batch_exec_props (mk : List String → GCall)
    (hmk : ∀ b, GCall.msgIds (mk b) = b) (ok : Nat → Bool) (ids : List String)
    (B : Nat) (hB : 0 < B) :
    batchProps ids B ok (batchLoop mk ok 0 (chunks B ids)) := by
  have hjoin : (chunks B ids).flatten = ids :=
    chunksAux_flatten B hB ids.length ids (Nat.le_refl _)
  have hcalls := batchLoop_calls mk ok 0 (chunks B ids)
  have hmap : ((batchLoop mk ok 0 (chunks B ids)).2.map GCall.msgIds) = chunks B ids := by
    rw [hcalls, List.map_map]
    have h2 : (GCall.msgIds ∘ mk) = id := funext hmk
    rw [h2, List.map_id]
  refine ⟨?_, ?_, ?_, ?_, ?_⟩
  · rw [hcalls, List.length_map]
    exact chunksAux_length B hB ids.length ids (Nat.le_refl _)
  · intro c hc
    rw [hcalls] at hc
    obtain ⟨b, hb, rfl⟩ := List.mem_map.mp hc
    rw [hmk]
    exact chunksAux_sizes B ids.length ids b hb
  · rw [hmap]
    exact hjoin
  · rw [hmap]
    exact batchLoop_count mk ok (chunks B ids) 0
  · calc (batchLoop mk ok 0 (chunks B ids)).1
        = succeededSumFrom ok 0 (chunks B ids) := batchLoop_count mk ok _ 0
      _ ≤ ((chunks B ids).map List.length).sum := succeededSumFrom_le ok _ 0
      _ = (chunks B ids).flatten.length := (List.length_flatten _).symm
      _ = ids.length := by rw [hjoin]

/-- C1: for every id list of length `N` and positive batch size `B`, each
of the three batch-action functions (delete, trash, label-and-archive —
the latter once its label resolved to a usable id) issues exactly
`ceil(N/B)` bulk mutation calls, each carrying at most `B` ids taken
contiguously in order; a failed batch is reported and the remaining
batches are still issued (the call list does not depend on the outcomes);
the returned count is the sum of the sizes of the batches whose calls
succeeded, which is at most `N`. -/
theorem c1_batch_partitioning (ids : List String) (B : Nat) (ok : Nat → Bool)
    (o : LabelOracle) (name lid : String) (archive : Bool) (hB : 0 < B)
    (hres : get_or_create_label o name = some lid)
    (hlid : lid.data.isEmpty = false) :
    batchProps ids B ok (delete_messages ok ids B) ∧
    batchProps ids B ok (trash_messages ok ids B) ∧
    batchProps ids B ok (label_and_archive_messages o ok ids name B archive) := by
  refine ⟨batch_exec_props GCall.batchDelete (fun b => rfl) ok ids B hB,
          batch_exec_props (fun ms => GCall.batchModify ms ["TRASH"] ["INBOX"])
            (fun b => rfl) ok ids B hB, ?_⟩
  unfold label_and_archive_messages
  rw [hres]
  simp only [hlid, Bool.false_eq_true, if_false]
  exact batch_exec_props
    (fun ms => GCall.batchModify ms [lid] (if archive then ["INBOX"] else []))
    (fun b => rfl) ok ids B hB

/-- Witness for C1: three ids, batch size two, only the first batch
succeeding, and a label oracle resolving `work` case-insensitively. -/
theorem c1_witness :
    0 < 2 ∧
    get_or_create_label ⟨.ok [⟨"Label_7", "Work"⟩], .ok "X", .ok []⟩ "work" =
      some "Label_7" ∧
    "Label_7".data.isEmpty = false ∧
    (batchProps ["a", "b", "c"] 2 (fun i => i == 0)
        (delete_messages (fun i => i == 0) ["a", "b", "c"] 2) ∧
      batchProps ["a", "b", "c"] 2 (fun i => i == 0)
        (trash_messages (fun i => i == 0) ["a", "b", "c"] 2) ∧
      batchProps ["a", "b", "c"] 2 (fun i => i == 0)
        (label_and_archive_messages ⟨.ok [⟨"Label_7", "Work"⟩], .ok "X", .ok []⟩
          (fun i => i == 0) ["a", "b", "c"] "work" 2 true)) :=
  ⟨by decide, by decide, by decide,
    c1_batch_partitioning ["a", "b", "c"] 2 (fun i => i == 0)
      ⟨.ok [⟨"Label_7", "Work"⟩], .ok "X", .ok []⟩ "work" "Label_7" true
      (by decide) (by decide) (by decide)⟩

/-- C7: when label resolution fails — the create call answers an
unresolvable conflict (409 but the re-list still has no match), any other
remote error, or a failing re-list — `get_or_create_label` returns the
`None` sentinel, and `label_and_archive_messages` then aborts with a
reported error, returns 0 processed and issues no bulk mutation call. -/
theorem c7_label_failure_aborts (o : LabelOracle) (name : String)
    (ids : List String) (ok : Nat → Bool) (B : Nat) (archive : Bool) :
    (∀ ls s, o.listLabels = .ok ls → findLabel name ls = none →
      o.createLabel = .err s →
      ((s ≠ 409 → get_or_create_label o name = none) ∧
       (∀ ls2, o.relistLabels = .ok ls2 → findLabel name ls2 = none →
         get_or_create_label o name = none) ∧
       (∀ s2, o.relistLabels = .err s2 → get_or_create_label o name = none))) ∧
    (get_or_create_label o name = none →
      label_and_archive_messages o ok ids name B archive = (0, [])) := by
  constructor
  · intro ls s hls hfind hcreate
    refine ⟨?_, ?_, ?_⟩
    · intro hs
      have h409 : (s == 409) = false := beq_eq_false_iff_ne.mpr hs
      simp [get_or_create_label, handleLabelError, hls, hfind, hcreate, h409]
    · intro ls2 hre hfind2
      simp only [get_or_create_label, handleLabelError, hls, hfind, hcreate, hre]
      split <;> simp [hfind2]
    · intro s2 hre
      simp only [get_or_create_label, handleLabelError, hls, hfind, hcreate, hre]
      split <;> simp
  · intro h
    simp [label_and_archive_messages, h]

/-- Witness for C7: an oracle whose create call fails with a plain 500
error makes the label unavailable and the dependent action abort. -/
theorem c7_witness :
    get_or_create_label ⟨.ok [], .err 500, .err 500⟩ "Work" = none ∧
    label_and_archive_messages ⟨.ok [], .err 500, .err 500⟩ (fun i => true)
      ["a"] "Work" 100 true = (0, []) :=
  ⟨by decide,
    (c7_label_failure_aborts ⟨.ok [], .err 500, .err 500⟩ "Work" ["a"]
      (fun i => true) 100 true).2 (by decide)⟩

/-- The execution loop computes, in one pass, the success count, the
manual bucket and the request trace described by the three per-sender
functions. -/
theorem unsubLoop_spec (outcome : String → HttpOutcome) :
    ∀ l : List SenderInfo,
      unsubLoop outcome l =
        ((l.filter (countsSuccess outcome)).length,
         l.filter (goesManual outcome),
         l.filterMap httpAttempt) := by
  intro l
  induction l with
  | nil => rfl
  | cons r rest ih =>
    cases hu : r.http_url with
    | none =>
      simp [unsubLoop, hu, ih, countsSuccess, goesManual, httpAttempt,
        List.filter_cons, List.filterMap_cons]
    | some url =>
      cases ho : outcome url <;>
        simp [unsubLoop, hu, ho, ih, countsSuccess, goesManual, httpAttempt,
          List.filter_cons, List.filterMap_cons]

/-- C6: during unsubscribe execution over the senders with an
unsubscribe affordance, the success count counts exactly the senders with
an HTTP URL whose request came back with any HTTP response — a non-2xx
status still counts as a success, only a transport-level failure does
not; the manual (mailto-only) bucket consists exactly of the senders
without an HTTP URL plus those whose request failed at transport level
and that have a mailto fallback (demotion happens iff a mailto URL is
present); and the issued requests are exactly one HTTP request per sender
having an HTTP URL — mailto-only senders are reported but never
auto-emailed (no request of any kind targets a mailto URL). -/
theorem c6_unsubscribe_execution (outcome : String → HttpOutcome)
    (infos : List SenderInfo) :
    (unsubscribe_from_messages outcome infos).1 =
      ((withLinks infos).filter (countsSuccess outcome)).length ∧
    (unsubscribe_from_messages outcome infos).2.1 =
      (withLinks infos).filter (goesManual outcome) ∧
    (unsubscribe_from_messages outcome infos).2.2 =
      (withLinks infos).filterMap httpAttempt := by
  unfold unsubscribe_from_messages
  rw [unsubLoop_spec outcome (withLinks infos)]
  exact ⟨rfl, rfl, rfl⟩

/-- Whenever the remote service honours the requested page size, the
search loop never collects more than its budget. -/
theorem search_messages_aux_le (fetch : Option Nat → Nat → List String × Option Nat)
    (maxR : Nat) (hfetch : ∀ t n, (fetch t n).1.length ≤ n) :
    ∀ (fuel : Nat) (token : Option Nat) (acc : List String), acc.length ≤ maxR →
      (search_messages_aux fetch maxR fuel token acc).length ≤ maxR := by
  intro fuel
  induction fuel with
  | zero => intro token acc h; exact h
  | succ fuel ih =>
    intro token acc h
    have hr := hfetch token (min (maxR - acc.length) 500)
    have hacc2 : (acc ++ (fetch token (min (maxR - acc.length) 500)).1).length ≤ maxR := by
      rw [List.length_append]
      have hmin : min (maxR - acc.length) 500 ≤ maxR - acc.length := Nat.min_le_left _ _
      omega
    simp only [search_messages_aux]
    split
    · exact hacc2
    · cases hnext : (fetch token (min (maxR - acc.length) 500)).2 with
      | none => exact hacc2
      | some t => exact ih (some t) _ hacc2

/-- C10: the post-rules suggestion phase always searches the inbox with
the hard-coded cap of 150 messages — no run-level result cap reaches it —
so, whenever the remote service honours the requested page sizes, at most
150 messages are ever collected for sender grouping and rule suggestion,
for any amount of paging. -/
theorem c10_suggest_scan_cap (fetch : Option Nat → Nat → List String × Option Nat)
    (fuel : Nat) (hfetch : ∀ t n, (fetch t n).1.length ≤ n) :
    (suggest_scan_messages fetch fuel).length ≤ 150 :=
  search_messages_aux_le fetch 150 hfetch fuel none [] (by simp)

/-- Witness for C10: a service with a single empty page. -/
theorem c10_witness :
    (∀ (t : Option Nat) (n : Nat),
      ((fun (_ : Option Nat) (_ : Nat) => (([] : List String), (none : Option Nat)))
          t n).1.length ≤ n) ∧
    (suggest_scan_messages
        (fun (_ : Option Nat) (_ : Nat) => (([] : List String), (none : Option Nat)))
        3).length ≤ 150 :=
  ⟨fun t n => by simp,
    c10_suggest_scan_cap
      (fun (_ : Option Nat) (_ : Nat) => (([] : List String), (none : Option Nat)))
      3 (fun t n => by simp)⟩

end GmailCleanup
